import Mathlib

/-!
Shallow embedding of the computational core of the smartstore-keywords
repository: the keyword opportunity scorer (`KeywordScorer` in
`src/lib/utils/index.ts`), the title generator (`TitleGenerator` in
`src/lib/algorithms/title-generator.ts`) and the category recommender
(`CategoryRecommender` in `src/lib/algorithms/category-recommender.ts`).

Modelling conventions:
* JavaScript numbers are modelled as exact rationals (`ℚ`); `Math.round`
  is `⌊x + 1/2⌋` (round half toward +∞), matching JS for the values involved.
* `Math.log` is transcendental and has no exact executable embedding, so it
  is abstracted as an explicit function parameter `log : ℚ → ℚ`; every
  theorem quantifies over it.
* Strings are Lean `String`s; the JS regular-expression operations used by
  the source (`split(/\s+/)`, `replace(/\s+/g,' ')`, the three spacing
  insertion rules, `trim`, `includes`, `toLowerCase`) are modelled as
  recursive functions on `List Char` below.  Arbitrary rule patterns
  (`new RegExp(pattern,'gi').test(text)`) are abstracted as a parameter
  `regexTest : String → String → Bool`.
* `Array.prototype.sort` is stable (ES2019); it is modelled as a stable
  insertion sort on the comparator key.
* Entity ids and timestamps (`generateId`, `new Date().toISOString()`) and
  the presentation-only `explanation` string of the scorer are not modelled;
  no claim concerns them.
-/

/-- Decides membership in the JS `\s` character class (ECMAScript WhiteSpace
and LineTerminator code points). -/
def isWSChar (c : Char) : Bool :=
  c.toNat = 9 || c.toNat = 10 || c.toNat = 11 || c.toNat = 12 || c.toNat = 13 ||
  c.toNat = 32 || c.toNat = 160 || c.toNat = 0x1680 ||
  (0x2000 ≤ c.toNat && c.toNat ≤ 0x200A) || c.toNat = 0x2028 || c.toNat = 0x2029 ||
  c.toNat = 0x202F || c.toNat = 0x205F || c.toNat = 0x3000 || c.toNat = 0xFEFF

/-- The regex class `[가-힣]` (precomposed Hangul syllables). -/
def isHangulChar (c : Char) : Bool :=
  0xAC00 ≤ c.toNat && c.toNat ≤ 0xD7A3

/-- The regex class `[A-Za-z]`. -/
def isLatinChar (c : Char) : Bool :=
  (65 ≤ c.toNat && c.toNat ≤ 90) || (97 ≤ c.toNat && c.toNat ≤ 122)

/-- The regex class `[0-9]` (also JS `\d`). -/
def isDigitChar (c : Char) : Bool :=
  48 ≤ c.toNat && c.toNat ≤ 57

/-- The regex class `[A-Z]`. -/
def isUpperChar (c : Char) : Bool :=
  65 ≤ c.toNat && c.toNat ≤ 90

/-- The regex class `\w`, i.e. `[A-Za-z0-9_]`. -/
def isWordChar (c : Char) : Bool :=
  isLatinChar c || isDigitChar c || c.toNat = 95

/-- JS `String.prototype.toLowerCase` restricted to the code points the
source manipulates (ASCII letters; Hangul and digits are fixed points). -/
def jsToLower (s : String) : String :=
  ⟨s.data.map Char.toLower⟩

/-- JS `hay.includes(sub)`. -/
def jsIncludes (hay sub : String) : Bool :=
  decide (sub.data <:+: hay.data)

/-- Scanner for `collapseWSChars`; `prevWS` records whether the previous
input character was whitespace (so a run beyond its first character emits
nothing). -/
def collapseWSAux (prevWS : Bool) : List Char → List Char
  | [] => []
  | c :: cs =>
    if isWSChar c then
      if prevWS then collapseWSAux true cs else ' ' :: collapseWSAux true cs
    else c :: collapseWSAux false cs

/-- JS `text.replace(/\s+/g, ' ')`: each maximal whitespace run becomes a
single space. -/
def collapseWSChars (l : List Char) : List Char :=
  collapseWSAux false l

/-- JS `text.replace(/(p)(q)/g, '$1 $2')` for the three spacing rules of
`normalizeSpacing`.  After a match the JS scan resumes after the matched
pair; since for all three rules a `$2` character can never start a new
match, resuming at `$2` (as below) is equivalent. -/
def insertPairSpace (p q : Char → Bool) : List Char → List Char
  | a :: b :: rest =>
    if p a && q b then a :: ' ' :: insertPairSpace p q (b :: rest)
    else a :: insertPairSpace p q (b :: rest)
  | l => l

/-- JS `String.prototype.trim`. -/
def trimChars (l : List Char) : List Char :=
  ((l.dropWhile isWSChar).reverse.dropWhile isWSChar).reverse

/-- Accumulator-passing core of `jsSplitWS`: `prevWS` records whether the
previous character was whitespace (a separator is emitted only at the first
character of a whitespace run), `cur` is the current token reversed. -/
def splitWSAux (prevWS : Bool) (cur : List Char) : List Char → List (List Char)
  | [] => [cur.reverse]
  | c :: cs =>
    if isWSChar c then
      if prevWS then splitWSAux true [] cs
      else cur.reverse :: splitWSAux true [] cs
    else splitWSAux false (c :: cur) cs

/-- JS `s.split(/\s+/)`: tokens between maximal whitespace runs, with an
empty leading (resp. trailing) token when the string starts (resp. ends)
with whitespace, and `[""]` on the empty string. -/
def jsSplitWS (s : String) : List String :=
  (splitWSAux false [] s.data).map (fun l => ⟨l⟩)

/-- JS `Math.round` (round half toward +∞). -/
def jsRound (q : ℚ) : ℤ :=
  ⌊q + 1/2⌋

/-- JS `Math.round(x * 100) / 100` (round to two decimal places). -/
def round2 (q : ℚ) : ℚ :=
  ((⌊q * 100 + 1/2⌋ : ℤ) : ℚ) / 100

/-- Insert `x` into a list already sorted descending on `key`, after every
element whose key is ≥ `key x` — the insertion step of a stable descending
sort. -/
def insertDescBy (key : α → ℚ) (x : α) : List α → List α
  | [] => [x]
  | y :: ys => if key y ≤ key x then x :: y :: ys else y :: insertDescBy key x ys

/-- Stable descending sort on `key`: the semantics of the ES2019
`Array.prototype.sort` with comparator `(a, b) => key(b) - key(a)`. -/
def sortDescBy (key : α → ℚ) : List α → List α
  | [] => []
  | x :: xs => insertDescBy key x (sortDescBy key xs)

/-- `Math.min(...l)` for a nonempty list ([] gives 0; unused). -/
def qMin : List ℚ → ℚ
  | [] => 0
  | x :: xs => xs.foldl min x

/-- `Math.max(...l)` for a nonempty list ([] gives 0; unused). -/
def qMax : List ℚ → ℚ
  | [] => 0
  | x :: xs => xs.foldl max x

/-- `l.reduce((a, b) => a + b, 0) / l.length`. -/
def qAvg (l : List ℚ) : ℚ :=
  l.foldl (· + ·) 0 / l.length

/-- The `KeywordTag` union type of `src/lib/types` (re-exported through
`src/lib/utils/index.ts`). -/
inductive KeywordTag where
  | seasonal | event | longtail | trending | brand | category | feature | custom
deriving DecidableEq, Repr

/-- The `Keyword` data model (`BaseEntity` timestamps are not modelled;
`id` stands for the opaque entity identifier). -/
structure Keyword where
  id : String
  term : String
  volume : ℚ
  competition : ℚ
  weight : Option ℚ
  notes : Option String
  tags : List KeywordTag
  score : Option ℚ
deriving DecidableEq, Repr

/-- The caller-supplied `AlgorithmWeights` configuration. -/
structure AlgorithmWeights where
  volume : ℚ
  competition : ℚ
  tag : ℚ
  ctr : Option ℚ
deriving DecidableEq, Repr

/-- `KeywordGroupStats` as produced by `KeywordScorer.calculateGroupStats`. -/
structure KeywordGroupStats where
  minVolume : ℚ
  maxVolume : ℚ
  avgVolume : ℚ
  minCompetition : ℚ
  maxCompetition : ℚ
  avgCompetition : ℚ
  totalKeywords : ℕ
deriving DecidableEq, Repr

/-- `KeywordScorer.calculateGroupStats`: min/max/average of volume and
competition over the batch, with the fixed default object on an empty
batch. -/
def calculateGroupStats (keywords : List Keyword) : KeywordGroupStats :=
  match keywords with
  | [] => ⟨0, 1, 0, 0, 1, 0, 0⟩
  | ks =>
    let volumes := ks.map (fun k => k.volume)
    let competitions := ks.map (fun k => k.competition)
    { minVolume := qMin volumes
      maxVolume := qMax volumes
      avgVolume := qAvg volumes
      minCompetition := qMin competitions
      maxCompetition := qMax competitions
      avgCompetition := qAvg competitions
      totalKeywords := ks.length }

/-- The per-tag base weights of `KeywordScorer.calculateTagWeight`. -/
def tagBaseWeight : KeywordTag → ℚ
  | .trending => 8/10
  | .longtail => 6/10
  | .seasonal => 4/10
  | .event => 3/10
  | .brand => 7/10
  | .category => 5/10
  | .feature => 4/10
  | .custom => 2/10

/-- `KeywordScorer.calculateTagWeight`: average of the base weights plus a
multiple-tag bonus `min(count/3, 1) * 0.2`, capped at 1; `0` for an empty
tag list. -/
def calculateTagWeight (tags : List KeywordTag) : ℚ :=
  if tags = [] then 0
  else
    let avgWeight := (tags.map tagBaseWeight).foldl (· + ·) (0 : ℚ) / (tags.length : ℚ)
    let tagCountBonus := min ((tags.length : ℚ) / 3) 1 * (2/10)
    min 1 (avgWeight + tagCountBonus)

/-- `KeywordScorer.normalizeVolume`: log-scale normalization of the volume
within the batch, `0.5` on a zero-variance batch.  `log` abstracts
JS `Math.log`. -/
def normalizeVolume (log : ℚ → ℚ) (volume : ℚ) (stats : KeywordGroupStats) : ℚ :=
  if stats.maxVolume = stats.minVolume then 1/2
  else (log (volume + 1) - log (stats.minVolume + 1)) /
    (log (stats.maxVolume + 1) - log (stats.minVolume + 1))

/-- `KeywordScoreResult` (the presentation-only `explanation` string is not
modelled; the `breakdown` object is flattened into the four fields
`volumeScore`/`competitionPenalty`/`tagBonus`/`ctrBonus`). -/
structure KeywordScoreResult where
  score : ℚ
  normalizedVolume : ℚ
  normalizedCompetition : ℚ
  tagWeight : ℚ
  volumeScore : ℚ
  competitionPenalty : ℚ
  tagBonus : ℚ
  ctrBonus : Option ℚ
deriving DecidableEq, Repr

/-- `KeywordScorer.calculateScore` on an explicitly supplied group-stats
object (the source's `this.groupStats`/default fallback is a caller
concern).  The CTR bonus applies when `keyword.weight` and `weights.ctr`
are both present and truthy, exactly as the JS `&&` test. -/
def calculateScore (log : ℚ → ℚ) (w : AlgorithmWeights) (keyword : Keyword)
    (stats : KeywordGroupStats) : KeywordScoreResult :=
  let normalizedVolume := normalizeVolume log keyword.volume stats
  let normalizedCompetition := keyword.competition / 100
  let tagWeight := calculateTagWeight keyword.tags
  let volumeScore := normalizedVolume * w.volume
  let competitionPenalty := normalizedCompetition * w.competition
  let tagBonus := tagWeight * w.tag
  let ctrBonus : ℚ :=
    match keyword.weight, w.ctr with
    | some kw, some c => if kw ≠ 0 ∧ c ≠ 0 then kw * c else 0
    | _, _ => 0
  let rawScore := (volumeScore + tagBonus + ctrBonus) / (competitionPenalty + 1)
  let finalScore := min 100 (max 0 (rawScore * 100))
  { score := round2 finalScore
    normalizedVolume := normalizedVolume
    normalizedCompetition := normalizedCompetition
    tagWeight := tagWeight
    volumeScore := volumeScore
    competitionPenalty := competitionPenalty
    tagBonus := tagBonus
    ctrBonus := if 0 < ctrBonus then some ctrBonus else none }

/-- `KeywordScorer.calculateScores`: recompute the group statistics and
write each keyword's computed score into its `score` field. -/
def calculateScores (log : ℚ → ℚ) (w : AlgorithmWeights)
    (keywords : List Keyword) : List Keyword :=
  let stats := calculateGroupStats keywords
  keywords.map (fun keyword =>
    { keyword with score := some (calculateScore log w keyword stats).score })

/-- JS truthiness of an optional string field (`undefined` and `""` are
falsy). -/
def truthyS (o : Option String) : Bool :=
  o.getD "" ≠ ""

/-- `TitleTemplate` (only `required_components` is read by the
generator). -/
structure TitleTemplate where
  name : String
  pattern : String
  required_components : List String
  max_length : ℕ
  separator : String
deriving DecidableEq, Repr

/-- `TitleGenerationConfig`. -/
structure TitleGenerationConfig where
  template : TitleTemplate
  stopwords : List String
  maxLength : ℕ
  minKeywords : ℕ
  maxKeywords : ℕ
  prioritizeKeywords : Bool
  removeDuplicates : Bool
  generateSpacingVariants : Bool
deriving DecidableEq, Repr

/-- `ProductTitleComponents`. -/
structure ProductTitleComponents where
  category : Option String
  demographic : Option String
  keywords : List String
  features : Option (List String)
  usage : Option String
deriving DecidableEq, Repr

/-- The `spacing_variants` object. -/
structure SpacingVariants where
  spaced : String
  unspaced : String
deriving DecidableEq, Repr

/-- `ProductTitle` (entity id and timestamps are not modelled; the source
always stores `keyword_ids = []`). -/
structure ProductTitle where
  keyword_ids : List String
  components : ProductTitleComponents
  title_text : String
  score : ℚ
  issues : List String
  spacing_variants : Option SpacingVariants
deriving DecidableEq, Repr

/-- The `breakdown` object of `TitleQualityScore`. -/
structure TitleBreakdown where
  keywordPlacement : ℚ
  readability : ℚ
  length : ℚ
  uniqueness : ℚ
deriving DecidableEq, Repr

/-- `TitleQualityScore` as returned by `TitleGenerator.evaluateTitle`. -/
structure TitleQualityScore where
  overall : ℚ
  breakdown : TitleBreakdown
  issues : List String
  suggestions : List String
deriving DecidableEq, Repr

/-- The object produced by spreading a `ProductTitle` and a
`TitleQualityScore` together in `generateTitles` step 5: all title fields,
with `issues` overwritten by the evaluation's `issues`, plus the evaluation
fields.  Note the spread leaves `score` untouched (the evaluation result
has no `score` key, only `overall`). -/
structure ScoredTitle where
  keyword_ids : List String
  components : ProductTitleComponents
  title_text : String
  score : ℚ
  issues : List String
  suggestions : List String
  spacing_variants : Option SpacingVariants
  overall : ℚ
  breakdown : TitleBreakdown
deriving DecidableEq, Repr

/-- `{...title, ...evaluation}`. -/
def mergeEval (t : ProductTitle) (q : TitleQualityScore) : ScoredTitle :=
  ⟨t.keyword_ids, t.components, t.title_text, t.score, q.issues, q.suggestions,
    t.spacing_variants, q.overall, q.breakdown⟩

/-- A `FormError` of the validation result. -/
structure FormError where
  field : String
  message : String
deriving DecidableEq, Repr

/-- `TitleGenerator.normalizeSpacing`: collapse whitespace runs, insert
single spaces at Hangul/Latin, Latin/Hangul and digit/Hangul boundaries,
and trim. -/
def normalizeSpacing (text : String) : String :=
  ⟨trimChars (insertPairSpace isDigitChar isHangulChar
    (insertPairSpace isLatinChar isHangulChar
      (insertPairSpace isHangulChar isLatinChar
        (collapseWSChars text.data))))⟩

/-- `TitleGenerator.removeSpacing`: `text.replace(/\s/g, '')`. -/
def removeSpacing (text : String) : String :=
  ⟨text.data.filter (fun c => !isWSChar c)⟩

/-- `TitleGenerator.generateSpacingVariants`. -/
def generateSpacingVariants (title : String) : SpacingVariants :=
  let spaced := normalizeSpacing title
  ⟨spaced, removeSpacing spaced⟩

/-- `TitleGenerator.removeStopwords`: drop every whitespace-separated token
that contains a configured stopword case-insensitively; returns the
re-joined text and the removed tokens. -/
def removeStopwords (cfg : TitleGenerationConfig) (text : String) :
    String × List String :=
  let words := jsSplitWS text
  let part := words.partition
    (fun w => cfg.stopwords.any (fun sw => jsIncludes (jsToLower w) (jsToLower sw)))
  (String.intercalate " " part.2, part.1)

/-- Recursion of `removeDuplicateWords` over the token list, carrying the
set of lower-cased tokens already seen; returns (kept, removed). -/
def dedupWordsAux (seen : List String) : List String → List String × List String
  | [] => ([], [])
  | w :: ws =>
    if seen.contains (jsToLower w) then
      let rest := dedupWordsAux seen ws
      (rest.1, w :: rest.2)
    else
      let rest := dedupWordsAux (jsToLower w :: seen) ws
      (w :: rest.1, rest.2)

/-- `TitleGenerator.removeDuplicateWords` (case-insensitive,
first-occurrence-wins). -/
def removeDuplicateWords (text : String) : String × List String :=
  let r := dedupWordsAux [] (jsSplitWS text)
  (String.intercalate " " r.1, r.2)

/-- `TitleGenerator.getKeywordsFromTitle`: the first three
whitespace-separated tokens. -/
def getKeywordsFromTitle (title : String) : List String :=
  (jsSplitWS title).take 3

/-- `TitleGenerator.evaluateKeywordPlacement`. -/
def evaluateKeywordPlacement (cfg : TitleGenerationConfig) (title : String) : ℚ :=
  let words := jsSplitWS title
  if words.length = 0 then 0
  else
    let keywordTerms :=
      if cfg.template.required_components.contains "keywords" then
        getKeywordsFromTitle title
      else []
    let score := keywordTerms.foldl (fun acc keyword =>
      match words.findIdx? (fun w => jsIncludes (jsToLower w) (jsToLower keyword)) with
      | some position => acc + max 0 (1 - (position : ℚ) / (words.length : ℚ))
      | none => acc) (0 : ℚ)
    if 0 < keywordTerms.length then score / (keywordTerms.length : ℚ) else 1/2

/-- `/[A-Z]{3,}/.test(title)`: three consecutive uppercase Latin letters. -/
def hasThreeUpper : List Char → Bool
  | a :: b :: c :: rest =>
    (isUpperChar a && isUpperChar b && isUpperChar c) || hasThreeUpper (b :: c :: rest)
  | _ => false

/-- `TitleGenerator.evaluateReadability`. -/
def evaluateReadability (title : String) : ℚ :=
  let s1 := (1 : ℚ) - (if title.length < 10 ∨ 80 < title.length then 3/10 else 0)
  let wordCount := (jsSplitWS title).length
  let s2 := s1 - (if wordCount < 2 ∨ 12 < wordCount then 2/10 else 0)
  let specialCharCount :=
    (title.data.filter (fun c => !(isWordChar c || isWSChar c || isHangulChar c))).length
  let s3 := s2 - (if 3 < specialCharCount then 2/10 else 0)
  let s4 := s3 - (if hasThreeUpper title.data then 1/10 else 0)
  max 0 s4

/-- `TitleGenerator.evaluateLengthScore`. -/
def evaluateLengthScore (cfg : TitleGenerationConfig) (title : String) : ℚ :=
  let length := (title.length : ℚ)
  let maxLength := (cfg.maxLength : ℚ)
  if maxLength < length then 0
  else
    let idealMin := maxLength * (6/10)
    let idealMax := maxLength * (9/10)
    if idealMin ≤ length ∧ length ≤ idealMax then 1
    else if length < idealMin then length / idealMin
    else 1 - (length - idealMax) / (maxLength - idealMax) * (3/10)

/-- The fixed generic marketing phrases penalized by
`evaluateUniqueness`. -/
def commonPhrases : List String :=
  ["최고", "최저가", "특가", "할인", "이벤트", "무료배송"]

/-- `TitleGenerator.evaluateUniqueness`. -/
def evaluateUniqueness (title : String) : ℚ :=
  let afterPhrases := commonPhrases.foldl
    (fun acc phrase => if jsIncludes title phrase then acc - 1/10 else acc) (1 : ℚ)
  let numberCount := (title.data.filter isDigitChar).length
  max 0 (afterPhrases - (if 5 < numberCount then 1/10 else 0))

/-- `TitleGenerator.analyzeIssues`: threshold-derived issue and suggestion
lists (issues first component, suggestions second). -/
def analyzeIssues (cfg : TitleGenerationConfig) (title : String)
    (breakdown : TitleBreakdown) : List String × List String :=
  let p := breakdown.keywordPlacement < 7/10
  let r := breakdown.readability < 7/10
  let l := breakdown.length < 8/10
  let long := cfg.maxLength < title.length
  let u := breakdown.uniqueness < 8/10
  ((if p then ["키워드가 뒤쪽에 배치되어 있습니다"] else []) ++
   (if r then ["가독성이 낮습니다"] else []) ++
   (if l then (if long then ["제목이 너무 깁니다"] else ["제목이 너무 짧습니다"]) else []) ++
   (if u then ["일반적인 표현이 많이 사용되었습니다"] else []),
   (if p then ["중요한 키워드를 제목 앞부분에 배치하세요"] else []) ++
   (if r then ["적절한 띄어쓰기와 단어 배치를 확인하세요"] else []) ++
   (if l then (if long then ["불필요한 단어를 제거하여 길이를 줄이세요"] else ["제품의 특징이나 용도를 추가하세요"]) else []) ++
   (if u then ["제품만의 고유한 특징을 강조하세요"] else []))

/-- `TitleGenerator.evaluateTitle`: the four sub-scores, their average
rounded to two decimals as `overall`, and the derived issues and
suggestions. -/
def evaluateTitle (cfg : TitleGenerationConfig) (title : String) :
    TitleQualityScore :=
  let breakdown : TitleBreakdown :=
    ⟨evaluateKeywordPlacement cfg title, evaluateReadability title,
      evaluateLengthScore cfg title, evaluateUniqueness title⟩
  let overall := (breakdown.keywordPlacement + breakdown.readability +
    breakdown.length + breakdown.uniqueness) / 4
  let an := analyzeIssues cfg title breakdown
  ⟨round2 overall, breakdown, an.1, an.2⟩

/-- `TitleGenerator.postProcessTitle`: stopword removal, optional duplicate
removal, length check (recorded as an issue, never truncated), optional
spacing variants. -/
def postProcessTitle (cfg : TitleGenerationConfig) (t : ProductTitle) :
    ProductTitle :=
  let r1 := removeStopwords cfg t.title_text
  let issues1 :=
    if r1.2 ≠ [] then ["금칙어 제거됨: " ++ String.intercalate ", " r1.2] else []
  let r2 :=
    if cfg.removeDuplicates then
      let d := removeDuplicateWords r1.1
      (d.1, if d.2 ≠ [] then ["중복 단어 제거됨: " ++ String.intercalate ", " d.2] else [])
    else (r1.1, [])
  let issues3 :=
    if cfg.maxLength < r2.1.length then
      ["길이 초과 (" ++ toString r2.1.length ++ "/" ++ toString cfg.maxLength ++ "자)"]
    else []
  let sv :=
    if cfg.generateSpacingVariants then some (generateSpacingVariants r2.1) else none
  { t with
    title_text := r2.1
    issues := t.issues ++ (issues1 ++ r2.2 ++ issues3)
    spacing_variants := sv }

/-- The ordered 2-element keyword combinations of
`generateKeywordCombinations`: for each index pair i < j, `[kᵢ, kⱼ]` then
`[kⱼ, kᵢ]`. -/
def orderedPairs : List String → List (List String)
  | [] => []
  | x :: xs => xs.flatMap (fun y => [[x, y], [y, x]]) ++ orderedPairs xs

/-- Ordered index pairs (i < j) of a list, in loop order. -/
def subPairs : List String → List (String × String)
  | [] => []
  | y :: ys => ys.map (fun z => (y, z)) ++ subPairs ys

/-- The 3-element combinations of `generateKeywordCombinations`
(i < j < k, in loop order). -/
def orderedTriples : List String → List (List String)
  | [] => []
  | x :: xs => (subPairs xs).map (fun p => [x, p.1, p.2]) ++ orderedTriples xs

/-- `TitleGenerator.generateKeywordCombinations`. -/
def generateKeywordCombinations (keywords : List String) : List (List String) :=
  orderedPairs keywords ++
    (if 3 ≤ keywords.length then orderedTriples keywords else [])

/-- JS `String.prototype.trim` on `String`. -/
def jsTrim (s : String) : String :=
  ⟨trimChars s.data⟩

/-- A candidate `ProductTitle` as built by `createTitleFromPattern` (id and
timestamps not modelled; `keyword_ids` is always stored empty by the
source). -/
def createTitleFromPattern (components : ProductTitleComponents)
    (titleText : String) : ProductTitle :=
  ⟨[], components, titleText, 0, [], none⟩

/-- `TitleGenerator.generateTitleCandidates`: the five fixed slot
orderings (guarded by field truthiness) plus up to five keyword
re-combinations, with empty candidates discarded.  Template literals
concatenate the slots with single spaces and `trim` the result. -/
def generateTitleCandidates (components : ProductTitleComponents)
    (keywords : List String) : List ProductTitle :=
  let kwS := String.intercalate " " keywords
  let catS := components.category.getD ""
  let featList := components.features.getD []
  let featS := String.intercalate " " featList
  let usageS := components.usage.getD ""
  let demoS := components.demographic.getD ""
  let mk := fun (text : String) => createTitleFromPattern components (jsTrim text)
  let c1 := [mk (kwS ++ " " ++ catS ++ " " ++ featS ++ " " ++ usageS)]
  let c2 :=
    if truthyS components.category then
      [mk (catS ++ " " ++ kwS ++ " " ++ featS ++ " " ++ usageS)]
    else []
  let c3 :=
    if featList ≠ [] then
      [mk (kwS ++ " " ++ featList.headD "" ++ " " ++ catS ++ " " ++ usageS)]
    else []
  let c4 :=
    if truthyS components.demographic then
      [mk (demoS ++ " " ++ kwS ++ " " ++ catS ++ " " ++ featS)]
    else []
  let c5 :=
    if truthyS components.usage then
      [mk (usageS ++ " " ++ kwS ++ " " ++ catS ++ " " ++ featS)]
    else []
  let c6 :=
    if 2 ≤ keywords.length then
      ((generateKeywordCombinations keywords).take 5).map
        (fun combination =>
          mk (String.intercalate " " combination ++ " " ++ catS ++ " " ++ featS ++ " " ++ usageS))
    else []
  (c1 ++ c2 ++ c3 ++ c4 ++ c5 ++ c6).filter (fun t => 0 < t.title_text.length)

/-- `TitleGenerator.selectAndSortKeywords`: look up each requested term in
the catalog case-insensitively (`new Map` keeps the last entry on key
collision), sort descending by score (missing scores rank 0) with the
stable sort, and truncate to `maxKeywords`. -/
def selectAndSortKeywords (cfg : TitleGenerationConfig)
    (allKeywords : List Keyword) (requestedKeywords : List String) : List String :=
  let selected := requestedKeywords.map (fun term =>
    match allKeywords.reverse.find? (fun k => jsToLower k.term == jsToLower term) with
    | some keyword => (term, keyword.score.getD 0)
    | none => (term, (0 : ℚ)))
  ((sortDescBy (fun p => p.2) selected).take cfg.maxKeywords).map (fun p => p.1)

/-- The requested terms that are absent (case-insensitively) from the
supplied keyword catalog, in request order — the `missingKeywords` list of
`validateInput`. -/
def missingKeywords (components : ProductTitleComponents)
    (keywords : List Keyword) : List String :=
  let available := keywords.map (fun k => jsToLower k.term)
  components.keywords.filter (fun term => !available.contains (jsToLower term))

/-- `TitleGenerator.validateInput`: the accumulated `FormError` list (empty
iff the input is valid). -/
def validateInput (cfg : TitleGenerationConfig)
    (components : ProductTitleComponents) (keywords : List Keyword) :
    List FormError :=
  (if components.keywords = [] then
    [⟨"keywords", "최소 1개의 키워드가 필요합니다"⟩]
  else []) ++
  (if cfg.maxKeywords < components.keywords.length then
    [⟨"keywords", "키워드는 최대 " ++ toString cfg.maxKeywords ++ "개까지 선택 가능합니다"⟩]
  else []) ++
  (if missingKeywords components keywords = [] then []
  else [⟨"keywords", "존재하지 않는 키워드: " ++
    String.intercalate ", " (missingKeywords components keywords)⟩])

/-- `TitleGenerator.generateTitles`: validate, select and sort keywords,
generate candidates, post-process, evaluate, sort by the `score` field
descending and keep the top 10.  A failed validation throws the joined
error messages. -/
def generateTitles (cfg : TitleGenerationConfig)
    (components : ProductTitleComponents) (keywords : List Keyword) :
    Except String (List ScoredTitle) :=
  let errors := validateInput cfg components keywords
  if errors = [] then
    let selectedKeywords := selectAndSortKeywords cfg keywords components.keywords
    let titleCandidates := generateTitleCandidates components selectedKeywords
    let processedTitles := titleCandidates.map (postProcessTitle cfg)
    let scoredTitles := processedTitles.map
      (fun t => mergeEval t (evaluateTitle cfg t.title_text))
    .ok ((sortDescBy (fun t => t.score) scoredTitles).take 10)
  else
    .error ("입력 검증 실패: " ++ String.intercalate ", " (errors.map (fun e => e.message)))

/-- `DEFAULT_TITLE_CONFIG` from `title-generator.ts`. -/
def DEFAULT_TITLE_CONFIG : TitleGenerationConfig :=
  { template :=
      { name := "기본 템플릿"
        pattern := "{keywords} {category} {features} {usage}"
        required_components := ["keywords"]
        max_length := 60
        separator := " " }
    stopwords := ["무료", "할인", "이벤트", "증정", "당첨", "공짜", "최저가", "특가",
      "free", "sale", "discount", "win", "prize", "cheap"]
    maxLength := 60
    minKeywords := 1
    maxKeywords := 3
    prioritizeKeywords := true
    removeDuplicates := true
    generateSpacingVariants := true }

/-- `CategoryAttribute` (descriptive data carried through unchanged; the
`type` discriminator is kept as its literal string). -/
structure CategoryAttribute where
  name : String
  type : String
  required : Bool
  options : Option (List String)
  placeholder : Option String
deriving DecidableEq, Repr

/-- `CategoryRule`. -/
structure CategoryRule where
  categoryName : String
  keywords : List String
  patterns : List String
  weight : ℚ
  confidence : ℚ
  reason : String
  attributes : List CategoryAttribute
deriving DecidableEq, Repr

/-- `CategorySuggestion` (entity id and timestamps not modelled);
`confidence` is the integer `Math.round(finalScore * 100)`. -/
structure CategorySuggestion where
  name : String
  reasons : List String
  attributes : List CategoryAttribute
  confidence : ℤ
deriving DecidableEq, Repr

/-- The `scoreBreakdown` object of a recommendation detail. -/
structure ScoreBreakdown where
  keywordScore : ℚ
  patternScore : ℚ
  frequencyScore : ℚ
  finalScore : ℚ
deriving DecidableEq, Repr

/-- `CategoryRecommendationDetail`. -/
structure CategoryRecommendationDetail where
  suggestion : CategorySuggestion
  matchedRules : List CategoryRule
  keywordMatches : List String
  patternMatches : List String
  scoreBreakdown : ScoreBreakdown
deriving DecidableEq, Repr

/-- The rule keywords found (lower-cased) as substrings of the analysis
text — the `keywordMatches` accumulation of `evaluateRule`. -/
def keywordMatchesOf (rule : CategoryRule) (allText : String) : List String :=
  rule.keywords.filter (fun keyword => jsIncludes allText (jsToLower keyword))

/-- The `frequencyScore` computation of `evaluateRule`: over keywords
scoring above 70 whose term contains (case-insensitively) some matched
rule-keyword, sum `score/100`; divide by `max(1, totalKeywords)` and cap
at 1. -/
def frequencyScoreOf (keywordMatches : List String) (keywords : List Keyword) : ℚ :=
  let highScoreKeywords := keywords.filter (fun k => decide (70 < k.score.getD 0))
  let raw := highScoreKeywords.foldl (fun acc keyword =>
    if keywordMatches.any (fun m => jsIncludes (jsToLower keyword.term) (jsToLower m)) then
      acc + keyword.score.getD 0 / 100
    else acc) (0 : ℚ)
  min 1 (raw / max 1 (keywords.length : ℚ))

/-- `CategoryRecommender.generateReasons`. -/
def generateReasons (rule : CategoryRule) (keywordMatches patternMatches : List String) :
    List String :=
  [rule.reason] ++
  (if keywordMatches ≠ [] then
    ["\x27" ++ String.intercalate ", " keywordMatches ++ "\x27 키워드가 매칭됨"]
  else []) ++
  (if patternMatches ≠ [] then ["상품 특성 패턴이 일치함"] else [])

/-- `CategoryRecommender.evaluateRule`; `regexTest pattern text` abstracts
`new RegExp(pattern, 'gi').test(text)`. -/
def evaluateRule (regexTest : String → String → Bool) (rule : CategoryRule)
    (texts : List String) (keywords : List Keyword) :
    CategoryRecommendationDetail :=
  let allText := String.intercalate " " texts
  let keywordMatches := keywordMatchesOf rule allText
  let keywordScore :=
    if 0 < rule.keywords.length then
      (keywordMatches.length : ℚ) / (rule.keywords.length : ℚ)
    else 0
  let patternMatches := rule.patterns.filter (fun pattern => regexTest pattern allText)
  let patternScore :=
    if 0 < rule.patterns.length then
      (patternMatches.length : ℚ) / (rule.patterns.length : ℚ)
    else 0
  let frequencyScore := frequencyScoreOf keywordMatches keywords
  let finalScore :=
    (keywordScore * (4/10) + patternScore * (3/10) + frequencyScore * (3/10)) *
      rule.weight * (rule.confidence / 100)
  { suggestion :=
      { name := rule.categoryName
        reasons := generateReasons rule keywordMatches patternMatches
        attributes := rule.attributes
        confidence := jsRound (finalScore * 100) }
    matchedRules := [rule]
    keywordMatches := keywordMatches
    patternMatches := patternMatches
    scoreBreakdown := ⟨keywordScore, patternScore, frequencyScore, finalScore⟩ }

/-- `CategoryRecommender.extractAdditionalTexts`. -/
def extractAdditionalTexts (components : Option ProductTitleComponents) :
    List String :=
  match components with
  | none => []
  | some c =>
    (if truthyS c.category then [jsToLower (c.category.getD "")] else []) ++
    (if truthyS c.demographic then [jsToLower (c.demographic.getD "")] else []) ++
    (match c.features with
    | some fs => fs.map jsToLower
    | none => []) ++
    (if truthyS c.usage then [jsToLower (c.usage.getD "")] else [])

/-- `CategoryRecommender.calculateCategoryScores`: evaluate every rule and
keep only the details with a strictly positive `finalScore`. -/
def calculateCategoryScores (regexTest : String → String → Bool)
    (rules : List CategoryRule) (texts : List String)
    (keywords : List Keyword) : List CategoryRecommendationDetail :=
  (rules.map (fun rule => evaluateRule regexTest rule texts keywords)).filter
    (fun d => decide (0 < d.scoreBreakdown.finalScore))

/-- `CategoryRecommender.recommendCategories` over an explicit rule table:
build the analysis text, score each rule, drop zero scores, sort
descending by `finalScore` and keep the first `maxSuggestions`. -/
def recommendCategories (regexTest : String → String → Bool)
    (rules : List CategoryRule) (keywords : List Keyword)
    (components : Option ProductTitleComponents) (maxSuggestions : ℕ) :
    List CategoryRecommendationDetail :=
  let keywordTexts := keywords.map (fun k => jsToLower k.term)
  let allTexts := keywordTexts ++ extractAdditionalTexts components
  (sortDescBy (fun d => d.scoreBreakdown.finalScore)
    (calculateCategoryScores regexTest rules allTexts keywords)).take maxSuggestions

/-- Transcription of the spec sentence behind claim C2 (the spec's
substring direction): sum of `score/100` over keywords *whose term is a
substring of* some matched rule-keyword and whose score exceeds 70,
normalized by `max(1, totalKeywords)` and capped at 1. -/
def specFrequencyScoreClaim (rule : CategoryRule) (texts : List String)
    (keywords : List Keyword) : ℚ :=
  let keywordMatches := keywordMatchesOf rule (String.intercalate " " texts)
  let contributing := keywords.filter (fun k =>
    decide (70 < k.score.getD 0) &&
      keywordMatches.any (fun m => jsIncludes (jsToLower m) (jsToLower k.term)))
  min 1 ((contributing.foldl (fun acc k => acc + k.score.getD 0 / 100) (0 : ℚ)) /
    max 1 (keywords.length : ℚ))

/-- The amended C2 sentence (substring direction reversed to match the
source): sum of `score/100` over keywords whose score exceeds 70 and whose
term *contains* (case-insensitively) some matched rule-keyword, normalized
by `max(1, totalKeywords)` and capped at 1. -/
def specFrequencyScoreAmended (rule : CategoryRule) (texts : List String)
    (keywords : List Keyword) : ℚ :=
  let keywordMatches := keywordMatchesOf rule (String.intercalate " " texts)
  let contributing := keywords.filter (fun k =>
    decide (70 < k.score.getD 0) &&
      keywordMatches.any (fun m => jsIncludes (jsToLower k.term) (jsToLower m)))
  min 1 ((contributing.foldl (fun acc k => acc + k.score.getD 0 / 100) (0 : ℚ)) /
    max 1 (keywords.length : ℚ))

/-- A title-generation config exercising claim C1: no stopwords, no
duplicate removal, two keywords and a category equal to the second
keyword. -/
def cfgC1 : TitleGenerationConfig :=
  { template := ⟨"기본", "", ["keywords"], 60, " "⟩
    stopwords := []
    maxLength := 60
    minKeywords := 1
    maxKeywords := 3
    prioritizeKeywords := true
    removeDuplicates := false
    generateSpacingVariants := false }

/-- Components for the C1 counterexample run. -/
def compsC1 : ProductTitleComponents := ⟨some "나", none, ["가", "나"], none, none⟩

/-- Keyword catalog for the C1 counterexample run. -/
def catalogC1 : List Keyword :=
  [⟨"k1", "가", 0, 0, none, none, [], none⟩,
   ⟨"k2", "나", 0, 0, none, none, [], none⟩]

/-- A 39-character title (four identical 9-char Hangul words) whose four
quality sub-scores are all 1 under the default config. -/
def titleC3 : String :=
  "가가가가가가가가가 가가가가가가가가가 가가가가가가가가가 가가가가가가가가가"

/-- Scenario B components: requested terms 스마트폰 and 케이스. -/
def compsB : ProductTitleComponents :=
  ⟨none, none, ["스마트폰", "케이스"], none, none⟩

/-- Scenario B catalog: 케이스 is absent. -/
def catalogB : List Keyword :=
  [⟨"k1", "스마트폰", 1000, 50, none, none, [], none⟩]

/-- A rule whose only keyword 폰 is a proper substring of the keyword term
스마트폰 (for the C2 substring-direction counterexample). -/
def ruleC2 : CategoryRule :=
  ⟨"스마트폰/태블릿", ["폰"], [], 1, 90, "모바일 디바이스 관련 키워드가 포함됨", []⟩

/-- A high-scoring keyword whose term strictly contains the rule keyword
폰. -/
def keywordsC2 : List Keyword :=
  [⟨"k1", "스마트폰", 1000, 50, none, none, [], some 80⟩]

/-- Config with `maxLength = 1` so that every generated title exceeds the
maximum (C6 witness). -/
def cfgC6 : TitleGenerationConfig :=
  { template := ⟨"기본", "", ["keywords"], 60, " "⟩
    stopwords := []
    maxLength := 1
    minKeywords := 1
    maxKeywords := 3
    prioritizeKeywords := true
    removeDuplicates := false
    generateSpacingVariants := false }

/-- Components for the C6 witness run. -/
def compsC6 : ProductTitleComponents := ⟨none, none, ["가나"], none, none⟩

/-- Catalog for the C6 witness run. -/
def catalogC6 : List Keyword := [⟨"k1", "가나", 0, 0, none, none, [], none⟩]

/-- A single-rule table (scenario C flavour) for the C7 witness. -/
def ruleC7 : CategoryRule :=
  ⟨"남성의류", ["셔츠"], [], 1, 85, "남성 의류 관련 키워드가 포함됨", []⟩

/-- Keywords containing 셔츠 for the C7 witness. -/
def keywordsC7 : List Keyword :=
  [⟨"k1", "셔츠", 100, 10, none, none, [], none⟩]

/-- A trivial stand-in for `Math.log` used by witnesses (the theorems hold
for every `log`). -/
def logZero : ℚ → ℚ := fun _ => 0

/-- Default-flavoured weights for the scorer witnesses. -/
def weightsW : AlgorithmWeights := ⟨7/10, 3/10, 1/10, none⟩

/-- Two-keyword batch for the scorer witnesses. -/
def keywordsW : List Keyword :=
  [⟨"k1", "사과", 100, 30, none, none, [], none⟩,
   ⟨"k2", "배", 10, 60, none, none, [KeywordTag.brand], some 5⟩]

/-- The relation "not both characters are whitespace" between adjacent
characters; `Chain' noDoubleWS` states a string has no two adjacent
whitespace characters. -/
def noDoubleWS (a b : Char) : Prop :=
  isWSChar a = false ∨ isWSChar b = false

/-- An arbitrary `ScoredTitle` used as the `headD` default in witnesses. -/
def dummyScored : ScoredTitle :=
  ⟨[], ⟨none, none, [], none, none⟩, "", 0, [], [], none, 0, ⟨0, 0, 0, 0⟩⟩

theorem mem_insertDescBy (key : α → ℚ) (x a : α) (l : List α) :
    a ∈ insertDescBy key x l ↔ a = x ∨ a ∈ l := by
  induction l with
  | nil => simp [insertDescBy]
  | cons y ys ih =>
    rw [insertDescBy]
    split
    · exact List.mem_cons
    · simp only [List.mem_cons, ih]
      tauto

theorem mem_sortDescBy (key : α → ℚ) (a : α) (l : List α) :
    a ∈ sortDescBy key l ↔ a ∈ l := by
  induction l with
  | nil => simp [sortDescBy]
  | cons x xs ih => simp [sortDescBy, mem_insertDescBy, ih]

theorem chain_insertDescBy (key : α → ℚ) (x : α) (l : List α)
    (h : l.Chain' (fun p q => key q ≤ key p)) :
    (insertDescBy key x l).Chain' (fun p q => key q ≤ key p) := by
  induction l with
  | nil => simp [insertDescBy]
  | cons y ys ih =>
    rw [insertDescBy]
    split
    case isTrue hxy =>
      exact List.chain'_cons.mpr ⟨hxy, h⟩
    case isFalse hxy =>
      have hins := ih (List.chain'_cons'.mp h).2
      refine List.chain'_cons'.mpr ⟨?_, hins⟩
      intro z hz
      cases ys with
      | nil =>
        simp [insertDescBy] at hz
        subst hz
        exact (not_le.mp hxy).le
      | cons w ws =>
        rw [insertDescBy] at hz
        split at hz
        · simp at hz
          subst hz
          exact (not_le.mp hxy).le
        · simp at hz
          subst hz
          exact (List.chain'_cons.mp h).1

theorem sorted_sortDescBy (key : α → ℚ) (l : List α) :
    (sortDescBy key l).Chain' (fun p q => key q ≤ key p) := by
  induction l with
  | nil => simp [sortDescBy]
  | cons x xs ih => exact chain_insertDescBy key x _ ih

theorem foldl_if_add_nonneg {α} (p : α → Bool) (f : α → ℚ) :
    ∀ (l : List α) (acc : ℚ), 0 ≤ acc → (∀ k ∈ l, 0 ≤ f k) →
      0 ≤ l.foldl (fun a k => if p k then a + f k else a) acc
  | [], acc, hacc, _ => hacc
  | x :: xs, acc, hacc, hf => by
    rw [List.foldl_cons]
    refine foldl_if_add_nonneg p f xs _ ?_ (fun k hk => hf k (List.mem_cons_of_mem x hk))
    split
    · exact add_nonneg hacc (hf x (List.mem_cons_self x xs))
    · exact hacc

theorem jsRound_bounds (q : ℚ) (h0 : 0 ≤ q) (h100 : q ≤ 100) :
    0 ≤ jsRound q ∧ jsRound q ≤ 100 := by
  constructor
  · exact Int.floor_nonneg.mpr (by linarith)
  · have : (⌊q + 1/2⌋ : ℤ) < 101 := Int.floor_lt.mpr (by push_cast; linarith)
    unfold jsRound
    omega

theorem round2_bounds (q : ℚ) (h0 : 0 ≤ q) (h100 : q ≤ 100) :
    0 ≤ round2 q ∧ round2 q ≤ 100 := by
  have hlo : (0 : ℤ) ≤ ⌊q * 100 + 1/2⌋ := Int.floor_nonneg.mpr (by linarith)
  have hhi : (⌊q * 100 + 1/2⌋ : ℤ) < 10001 := Int.floor_lt.mpr (by push_cast; linarith)
  unfold round2
  constructor
  · exact div_nonneg (by exact_mod_cast hlo) (by norm_num)
  · rw [div_le_iff₀ (by norm_num : (0:ℚ) < 100)]
    calc ((⌊q * 100 + 1/2⌋ : ℤ) : ℚ) ≤ 10000 := by exact_mod_cast Int.lt_add_one_iff.mp hhi
    _ = 100 * 100 := by norm_num

theorem frequencyScoreOf_bounds (km : List String) (ks : List Keyword) :
    0 ≤ frequencyScoreOf km ks ∧ frequencyScoreOf km ks ≤ 1 := by
  unfold frequencyScoreOf
  refine ⟨le_min (by norm_num)
    (div_nonneg ?_ (le_trans zero_le_one (le_max_left _ _))), min_le_left _ _⟩
  refine foldl_if_add_nonneg _ _ _ _ le_rfl ?_
  intro k hk
  have h70 : (70 : ℚ) < k.score.getD 0 := of_decide_eq_true (List.mem_filter.mp hk).2
  linarith

theorem weightedComboBounds (a b f w c : ℚ)
    (ha : 0 ≤ a ∧ a ≤ 1) (hb : 0 ≤ b ∧ b ≤ 1) (hf : 0 ≤ f ∧ f ≤ 1)
    (hw : 0 ≤ w ∧ w ≤ 1) (hc : 0 ≤ c ∧ c ≤ 100) :
    0 ≤ (a * (4/10) + b * (3/10) + f * (3/10)) * w * (c / 100) ∧
      (a * (4/10) + b * (3/10) + f * (3/10)) * w * (c / 100) ≤ 1 := by
  have hs0 : 0 ≤ a * (4/10) + b * (3/10) + f * (3/10) := by linarith [ha.1, hb.1, hf.1]
  have hs1 : a * (4/10) + b * (3/10) + f * (3/10) ≤ 1 := by linarith [ha.2, hb.2, hf.2]
  have hc0 : (0:ℚ) ≤ c / 100 := by linarith [hc.1]
  have hc1 : c / 100 ≤ 1 := by linarith [hc.2]
  constructor
  · exact mul_nonneg (mul_nonneg hs0 hw.1) hc0
  · exact mul_le_one₀ (mul_le_one₀ hs1 hw.1 hw.2) hc0 hc1

theorem evaluateRule_finalScore_bounds (regexTest : String → String → Bool)
    (rule : CategoryRule) (texts : List String) (keywords : List Keyword)
    (hw : 0 ≤ rule.weight ∧ rule.weight ≤ 1)
    (hc : 0 ≤ rule.confidence ∧ rule.confidence ≤ 100) :
    0 ≤ (evaluateRule regexTest rule texts keywords).scoreBreakdown.finalScore ∧
      (evaluateRule regexTest rule texts keywords).scoreBreakdown.finalScore ≤ 1 := by
  have hks : 0 ≤ (if 0 < rule.keywords.length then
      ((keywordMatchesOf rule (String.intercalate " " texts)).length : ℚ) /
        (rule.keywords.length : ℚ) else 0) ∧
      (if 0 < rule.keywords.length then
      ((keywordMatchesOf rule (String.intercalate " " texts)).length : ℚ) /
        (rule.keywords.length : ℚ) else 0) ≤ 1 := by
    split
    case isTrue h =>
      constructor
      · positivity
      · rw [div_le_one (by exact_mod_cast h)]
        exact_mod_cast List.length_filter_le _ _
    case isFalse h => norm_num
  have hps : 0 ≤ (if 0 < rule.patterns.length then
      ((rule.patterns.filter (fun pattern =>
        regexTest pattern (String.intercalate " " texts))).length : ℚ) /
        (rule.patterns.length : ℚ) else 0) ∧
      (if 0 < rule.patterns.length then
      ((rule.patterns.filter (fun pattern =>
        regexTest pattern (String.intercalate " " texts))).length : ℚ) /
        (rule.patterns.length : ℚ) else 0) ≤ 1 := by
    split
    case isTrue h =>
      constructor
      · positivity
      · rw [div_le_one (by exact_mod_cast h)]
        exact_mod_cast List.length_filter_le _ _
    case isFalse h => norm_num
  have hfs := frequencyScoreOf_bounds
    (keywordMatchesOf rule (String.intercalate " " texts)) keywords
  show 0 ≤ (_ * (4/10) + _ * (3/10) + _ * (3/10)) * rule.weight * (rule.confidence / 100) ∧
    (_ * (4/10) + _ * (3/10) + _ * (3/10)) * rule.weight * (rule.confidence / 100) ≤ 1
  obtain ⟨hk0, hk1⟩ := hks
  obtain ⟨hp0, hp1⟩ := hps
  obtain ⟨hf0, hf1⟩ := hfs
  obtain ⟨hw0, hw1⟩ := hw
  obtain ⟨hc0, hc1⟩ := hc
  exact weightedComboBounds _ _ _ _ _ ⟨hk0, hk1⟩ ⟨hp0, hp1⟩ ⟨hf0, hf1⟩ ⟨hw0, hw1⟩ ⟨hc0, hc1⟩

/-- Claim C7: for a rule table whose rules all have weight in [0,1] and
base confidence in [0,100] and for every input, every suggestion returned
by `recommendCategories` has confidence in [0,100], no detail with
`finalScore = 0` appears, and the results are sorted descending by
`finalScore` and truncated to `maxSuggestions` entries. -/
theorem recommendCategories_confidence_sorted (regexTest : String → String → Bool)
    (rules : List CategoryRule) (keywords : List Keyword)
    (components : Option ProductTitleComponents) (maxSuggestions : ℕ)
    (hw : ∀ r ∈ rules, 0 ≤ r.weight ∧ r.weight ≤ 1)
    (hc : ∀ r ∈ rules, 0 ≤ r.confidence ∧ r.confidence ≤ 100) :
    (∀ d ∈ recommendCategories regexTest rules keywords components maxSuggestions,
      (0 ≤ d.suggestion.confidence ∧ d.suggestion.confidence ≤ 100) ∧
        d.scoreBreakdown.finalScore ≠ 0) ∧
    (recommendCategories regexTest rules keywords components maxSuggestions).Chain'
      (fun a b => b.scoreBreakdown.finalScore ≤ a.scoreBreakdown.finalScore) ∧
    (recommendCategories regexTest rules keywords components maxSuggestions).length ≤
      maxSuggestions := by
  refine ⟨?_, ?_, ?_⟩
  · intro d hd
    have hd1 : d ∈ sortDescBy (fun d => d.scoreBreakdown.finalScore)
        (calculateCategoryScores regexTest rules
          (keywords.map (fun k => jsToLower k.term) ++ extractAdditionalTexts components)
          keywords) := List.take_subset _ _ hd
    have hd2 := (mem_sortDescBy _ _ _).mp hd1
    obtain ⟨hmem, hpos⟩ := List.mem_filter.mp hd2
    have hfin : 0 < d.scoreBreakdown.finalScore := of_decide_eq_true hpos
    obtain ⟨r, hr, heq⟩ := List.mem_map.mp hmem
    subst heq
    refine ⟨?_, ne_of_gt hfin⟩
    have hb := evaluateRule_finalScore_bounds regexTest r
      (keywords.map (fun k => jsToLower k.term) ++ extractAdditionalTexts components)
      keywords (hw r hr) (hc r hr)
    exact jsRound_bounds
      ((evaluateRule regexTest r
        (keywords.map (fun k => jsToLower k.term) ++ extractAdditionalTexts components)
        keywords).scoreBreakdown.finalScore * 100)
      (by linarith [hb.1]) (by linarith [hb.2])
  · exact (sorted_sortDescBy _ _).take _
  · exact List.length_take_le _ _

/-- Closed instance of claim C7: a one-rule table matching the keyword
셔츠 satisfies the hypotheses, and its single suggestion obeys the bounds. -/
theorem recommendCategories_confidence_sorted_witness :
    (∀ r ∈ [ruleC7], (0 ≤ r.weight ∧ r.weight ≤ 1) ∧ (0 ≤ r.confidence ∧ r.confidence ≤ 100)) ∧
    (∀ d ∈ recommendCategories (fun _ _ => false) [ruleC7] keywordsC7 none 3,
      (0 ≤ d.suggestion.confidence ∧ d.suggestion.confidence ≤ 100) ∧
        d.scoreBreakdown.finalScore ≠ 0) :=
  ⟨by with_unfolding_all decide,
    (recommendCategories_confidence_sorted (fun _ _ => false) [ruleC7] keywordsC7 none 3
      (by with_unfolding_all decide) (by with_unfolding_all decide)).1⟩

theorem foldl_filter_if {α} (p q : α → Bool) (f : α → ℚ) :
    ∀ (l : List α) (acc : ℚ),
      (l.filter p).foldl (fun a k => if q k then a + f k else a) acc =
        (l.filter (fun k => p k && q k)).foldl (fun a k => a + f k) acc := by
  intro l
  induction l with
  | nil => intro acc; rfl
  | cons x xs ih =>
    intro acc
    by_cases hp : p x
    · by_cases hq : q x
      · simp [List.filter_cons, hp, hq, ih]
      · simp [List.filter_cons, hp, hq, ih]
    · simp [List.filter_cons, hp, ih]

/-- Claim C2 (amended): `evaluateRule`'s `frequencyScore` sums `score/100`
over the keywords whose score exceeds 70 and whose term contains
(case-insensitively) some matched rule-keyword, normalized by
`max(1, totalKeywords)` and capped at 1. -/
theorem frequencyScore_amended_spec (regexTest : String → String → Bool)
    (rule : CategoryRule) (texts : List String) (keywords : List Keyword) :
    (evaluateRule regexTest rule texts keywords).scoreBreakdown.frequencyScore =
      specFrequencyScoreAmended rule texts keywords := by
  show frequencyScoreOf (keywordMatchesOf rule (String.intercalate " " texts)) keywords =
    specFrequencyScoreAmended rule texts keywords
  unfold frequencyScoreOf specFrequencyScoreAmended
  dsimp only
  rw [foldl_filter_if]

/-- The claim's substring direction ("term is a substring of a matched
rule-keyword") disagrees with the code on a rule keyword 폰 matched inside
the keyword term 스마트폰 scoring 80: the code yields 4/5, the claimed
formula yields 0. -/
theorem frequencyScore_direction_counterexample :
    (evaluateRule (fun _ _ => false) ruleC2 ["스마트폰"] keywordsC2).scoreBreakdown.frequencyScore
        = 4/5 ∧
      specFrequencyScoreClaim ruleC2 ["스마트폰"] keywordsC2 = 0 ∧
      (evaluateRule (fun _ _ => false) ruleC2 ["스마트폰"] keywordsC2).scoreBreakdown.frequencyScore
        ≠ specFrequencyScoreClaim ruleC2 ["스마트폰"] keywordsC2 := by
  with_unfolding_all decide

theorem isHangulChar_not_ws (c : Char) (h : isHangulChar c = true) :
    isWSChar c = false := by
  simp only [isHangulChar, Bool.and_eq_true, decide_eq_true_eq] at h
  simp only [isWSChar, Bool.or_eq_false_iff, Bool.and_eq_false_iff,
    decide_eq_false_iff_not]
  omega

theorem isLatinChar_not_ws (c : Char) (h : isLatinChar c = true) :
    isWSChar c = false := by
  simp only [isLatinChar, Bool.or_eq_true, Bool.and_eq_true, decide_eq_true_eq] at h
  simp only [isWSChar, Bool.or_eq_false_iff, Bool.and_eq_false_iff,
    decide_eq_false_iff_not]
  omega

theorem isDigitChar_not_ws (c : Char) (h : isDigitChar c = true) :
    isWSChar c = false := by
  simp only [isDigitChar, Bool.and_eq_true, decide_eq_true_eq] at h
  simp only [isWSChar, Bool.or_eq_false_iff, Bool.and_eq_false_iff,
    decide_eq_false_iff_not]
  omega

theorem collapseWSAux_true_head :
    ∀ (l : List Char) (c : Char), (collapseWSAux true l).head? = some c →
      isWSChar c = false
  | [], c, h => by simp [collapseWSAux] at h
  | x :: xs, c, h => by
    rw [collapseWSAux] at h
    by_cases hx : isWSChar x
    · rw [if_pos hx, if_pos rfl] at h
      exact collapseWSAux_true_head xs c h
    · rw [if_neg hx] at h
      simp only [List.head?_cons, Option.some.injEq] at h
      subst h
      exact Bool.eq_false_iff.mpr hx

theorem chain_collapseWSAux :
    ∀ (l : List Char) (prev : Bool), (collapseWSAux prev l).Chain' noDoubleWS
  | [], prev => by simp [collapseWSAux]
  | x :: xs, prev => by
    rw [collapseWSAux]
    by_cases hx : isWSChar x
    · rw [if_pos hx]
      cases prev with
      | true =>
        rw [if_pos rfl]
        exact chain_collapseWSAux xs true
      | false =>
        simp only [Bool.false_eq_true, if_false]
        refine List.chain'_cons'.mpr ⟨?_, chain_collapseWSAux xs true⟩
        intro y hy
        exact Or.inr (collapseWSAux_true_head xs y hy)
    · rw [if_neg hx]
      refine List.chain'_cons'.mpr ⟨?_, chain_collapseWSAux xs false⟩
      intro y _
      exact Or.inl (Bool.eq_false_iff.mpr hx)

theorem insertPairSpace_cons_head (p q : Char → Bool) (x : Char) (xs : List Char) :
    ∃ t, insertPairSpace p q (x :: xs) = x :: t := by
  cases xs with
  | nil => exact ⟨[], rfl⟩
  | cons y ys =>
    rw [insertPairSpace]
    split
    · exact ⟨_, rfl⟩
    · exact ⟨_, rfl⟩

theorem chain_insertPairSpace (p q : Char → Bool)
    (hp : ∀ c, p c = true → isWSChar c = false)
    (hq : ∀ c, q c = true → isWSChar c = false) :
    ∀ l : List Char, l.Chain' noDoubleWS → (insertPairSpace p q l).Chain' noDoubleWS
  | [], _ => by simp [insertPairSpace]
  | [a], h => by simp [insertPairSpace]
  | a :: b :: rest, h => by
    have hrec := chain_insertPairSpace p q hp hq (b :: rest) (List.chain'_cons.mp h).2
    obtain ⟨t, ht⟩ := insertPairSpace_cons_head p q b rest
    rw [insertPairSpace]
    by_cases hab : p a && q b
    · rw [if_pos hab]
      obtain ⟨hpa, hqb⟩ : p a = true ∧ q b = true := by simpa using hab
      rw [ht]
      refine List.chain'_cons.mpr ⟨Or.inl (hp a hpa), ?_⟩
      refine List.chain'_cons.mpr ⟨Or.inr (hq b hqb), ?_⟩
      rw [← ht]
      exact hrec
    · rw [if_neg hab, ht]
      refine List.chain'_cons.mpr ⟨(List.chain'_cons.mp h).1, ?_⟩
      rw [← ht]
      exact hrec

theorem chain_noDoubleWS_flip {l : List Char} (h : l.Chain' noDoubleWS) :
    l.Chain' (flip noDoubleWS) :=
  h.imp (fun _ _ hab => hab.symm)

theorem chain_trimChars (l : List Char) (h : l.Chain' noDoubleWS) :
    (trimChars l).Chain' noDoubleWS := by
  unfold trimChars
  have h1 : (l.dropWhile isWSChar).Chain' noDoubleWS :=
    h.suffix (List.dropWhile_suffix _)
  have h2 : (l.dropWhile isWSChar).reverse.Chain' noDoubleWS :=
    List.chain'_reverse.mpr (chain_noDoubleWS_flip h1)
  have h3 : ((l.dropWhile isWSChar).reverse.dropWhile isWSChar).Chain' noDoubleWS :=
    h2.suffix (List.dropWhile_suffix _)
  exact List.chain'_reverse.mpr (chain_noDoubleWS_flip h3)

/-- Claim C9: for every input string, the `unspaced` spacing variant
contains no whitespace character, and the `spaced` variant contains no two
consecutive spaces. -/
theorem generateSpacingVariants_whitespace (s : String) :
    (∀ c ∈ (generateSpacingVariants s).unspaced.data, isWSChar c = false) ∧
    ¬ ([' ', ' '] <:+: (generateSpacingVariants s).spaced.data) := by
  have hch : ((generateSpacingVariants s).spaced.data).Chain' noDoubleWS := by
    show (trimChars (insertPairSpace isDigitChar isHangulChar
      (insertPairSpace isLatinChar isHangulChar
        (insertPairSpace isHangulChar isLatinChar
          (collapseWSChars s.data))))).Chain' noDoubleWS
    refine chain_trimChars _ ?_
    refine chain_insertPairSpace _ _ isDigitChar_not_ws isHangulChar_not_ws _ ?_
    refine chain_insertPairSpace _ _ isLatinChar_not_ws isHangulChar_not_ws _ ?_
    refine chain_insertPairSpace _ _ isHangulChar_not_ws isLatinChar_not_ws _ ?_
    exact chain_collapseWSAux s.data false
  constructor
  · intro c hc
    have hmem : c ∈ ((generateSpacingVariants s).spaced.data).filter (fun c => !isWSChar c) := hc
    have := (List.mem_filter.mp hmem).2
    simpa using this
  · intro hinf
    have hsub : List.Chain' noDoubleWS [' ', ' '] :=
      List.Chain'.infix hch hinf
    have hpair : noDoubleWS ' ' ' ' := List.chain'_pair.mp hsub
    rcases hpair with h | h <;> exact absurd h (by decide)

theorem evaluateLengthScore_zero_of_long (cfg : TitleGenerationConfig)
    (title : String) (h : cfg.maxLength < title.length) :
    evaluateLengthScore cfg title = 0 := by
  unfold evaluateLengthScore
  rw [if_pos (by exact_mod_cast h)]

theorem mem_issues_evaluateTitle_of_long (cfg : TitleGenerationConfig)
    (title : String) (h : cfg.maxLength < title.length) :
    "제목이 너무 깁니다" ∈ (evaluateTitle cfg title).issues := by
  show "제목이 너무 깁니다" ∈
    (analyzeIssues cfg title ⟨evaluateKeywordPlacement cfg title,
      evaluateReadability title, evaluateLengthScore cfg title,
      evaluateUniqueness title⟩).1
  unfold analyzeIssues
  dsimp only
  rw [evaluateLengthScore_zero_of_long cfg title h]
  rw [if_pos (by norm_num : (0:ℚ) < 8/10), if_pos h]
  simp [List.mem_append]

/-- Claim C6: every `ProductTitle` returned by `generateTitles` whose
`title_text` exceeds the configured `maxLength` carries the length issue
string in its `issues` field. -/
theorem generateTitles_long_title_flagged (cfg : TitleGenerationConfig)
    (components : ProductTitleComponents) (keywords : List Keyword)
    (out : List ScoredTitle) (t : ScoredTitle)
    (hok : generateTitles cfg components keywords = Except.ok out)
    (ht : t ∈ out) (hlen : cfg.maxLength < t.title_text.length) :
    "제목이 너무 깁니다" ∈ t.issues := by
  unfold generateTitles at hok
  dsimp only at hok
  split at hok
  case isTrue herr =>
    rw [Except.ok.injEq] at hok
    subst hok
    have ht1 := List.take_subset _ _ ht
    have ht2 := (mem_sortDescBy _ _ _).mp ht1
    obtain ⟨u, _, heq⟩ := List.mem_map.mp ht2
    subst heq
    exact mem_issues_evaluateTitle_of_long cfg _ hlen
  case isFalse herr =>
    exact absurd hok (by simp)

theorem headD_mem_of_ne_nil {α} (l : List α) (d : α) (h : l ≠ []) :
    l.headD d ∈ l := by
  cases l with
  | nil => exact absurd rfl h
  | cons x xs => simp [List.headD]

set_option maxRecDepth 4000 in
/-- Closed instance of claim C6: with `maxLength = 1` the single generated
title 가나 (length 2) is returned carrying the length issue. -/
theorem generateTitles_long_title_flagged_witness :
    "제목이 너무 깁니다" ∈
      (((generateTitles cfgC6 compsC6 catalogC6).toOption.getD []).headD dummyScored).issues :=
  generateTitles_long_title_flagged cfgC6 compsC6 catalogC6
    ((generateTitles cfgC6 compsC6 catalogC6).toOption.getD [])
    (((generateTitles cfgC6 compsC6 catalogC6).toOption.getD []).headD dummyScored)
    rfl
    (headD_mem_of_ne_nil _ dummyScored (by with_unfolding_all decide))
    (by with_unfolding_all decide)

/-- Claim C5: `calculateScore` returns exactly
`clamp(raw*100, 0, 100)` rounded to two decimals, with
`raw = (normVolume*w.volume + tagWeight*w.tag + ctrBonus) /
(normCompetition*w.competition + 1)`, the log-scale `normVolume` (0.5 on a
zero-variance batch), `normCompetition = competition/100`, and the CTR
bonus present only when both `keyword.weight` and `weights.ctr` are; the
score therefore always lies in [0, 100]. -/
theorem calculateScore_closed_form (log : ℚ → ℚ) (w : AlgorithmWeights)
    (k : Keyword) (stats : KeywordGroupStats) :
    (calculateScore log w k stats).score =
      round2 (min 100 (max 0 (((if stats.maxVolume = stats.minVolume then (1:ℚ)/2
          else (log (k.volume + 1) - log (stats.minVolume + 1)) /
            (log (stats.maxVolume + 1) - log (stats.minVolume + 1))) * w.volume +
        calculateTagWeight k.tags * w.tag +
        (match k.weight, w.ctr with
         | some kw, some c => kw * c
         | _, _ => 0)) / (k.competition / 100 * w.competition + 1) * 100))) ∧
    0 ≤ (calculateScore log w k stats).score ∧
      (calculateScore log w k stats).score ≤ 100 := by
  refine ⟨?_, ?_, ?_⟩
  · show round2 (min 100 (max 0 ((normalizeVolume log k.volume stats * w.volume +
      calculateTagWeight k.tags * w.tag +
      (match k.weight, w.ctr with
       | some kw, some c => if kw ≠ 0 ∧ c ≠ 0 then kw * c else 0
       | _, _ => 0)) / (k.competition / 100 * w.competition + 1) * 100))) = _
    have hctr : (match k.weight, w.ctr with
        | some kw, some c => if kw ≠ 0 ∧ c ≠ 0 then kw * c else 0
        | _, _ => (0:ℚ)) =
        (match k.weight, w.ctr with
        | some kw, some c => kw * c
        | _, _ => (0:ℚ)) := by
      rcases k.weight with _ | kw <;> rcases w.ctr with _ | c <;> try rfl
      by_cases h : kw ≠ 0 ∧ c ≠ 0
      · simp [h]
      · have hz : kw * c = 0 := by
          rcases not_and_or.mp h with h0 | h0 <;>
            simp [not_not.mp h0]
        simp [h, hz]
    rw [hctr]
    rfl
  · show 0 ≤ round2 (min 100 (max 0 _))
    exact (round2_bounds _ (le_min (by norm_num) (le_max_left _ _)) (min_le_left _ _)).1
  · show round2 (min 100 (max 0 _)) ≤ 100
    exact (round2_bounds _ (le_min (by norm_num) (le_max_left _ _)) (min_le_left _ _)).2

theorem calculateGroupStats_score_invariant (ks : List Keyword)
    (g : Keyword → Option ℚ) :
    calculateGroupStats (ks.map (fun k => { k with score := g k })) =
      calculateGroupStats ks := by
  cases ks with
  | nil => rfl
  | cons k t =>
    simp only [calculateGroupStats, List.map_cons, List.map_map, List.length_cons,
      List.length_map]
    rfl

/-- Claim C8: `calculateScores` is deterministic and idempotent — scoring
twice on the same list yields the same result, and re-scoring its own
output (which differs from the input only in the `score` field) yields the
same list again, because the group statistics and per-keyword scores read
only fields scoring never changes. -/
theorem calculateScores_idempotent (log : ℚ → ℚ) (w : AlgorithmWeights)
    (ks : List Keyword) :
    calculateScores log w ks = calculateScores log w ks ∧
    calculateScores log w (calculateScores log w ks) = calculateScores log w ks := by
  refine ⟨rfl, ?_⟩
  have hstats : calculateGroupStats (calculateScores log w ks) = calculateGroupStats ks := by
    show calculateGroupStats (ks.map (fun k =>
      { k with score := some (calculateScore log w k (calculateGroupStats ks)).score })) =
      calculateGroupStats ks
    exact calculateGroupStats_score_invariant ks _
  show (calculateScores log w ks).map (fun k =>
      { k with score := some (calculateScore log w k
        (calculateGroupStats (calculateScores log w ks))).score }) =
    calculateScores log w ks
  rw [hstats]
  show (ks.map (fun k =>
      { k with score := some (calculateScore log w k (calculateGroupStats ks)).score })).map
      (fun k => { k with score := some (calculateScore log w k (calculateGroupStats ks)).score }) =
    ks.map (fun k =>
      { k with score := some (calculateScore log w k (calculateGroupStats ks)).score })
  rw [List.map_map]
  exact List.map_congr_left (fun a _ => rfl)

/-- Claim C10: `calculateScores` returns a list of the same length and
order, each element equal to the corresponding input keyword with only the
`score` field replaced (all other fields unchanged by the record
update). -/
theorem calculateScores_frame (log : ℚ → ℚ) (w : AlgorithmWeights)
    (ks : List Keyword) :
    (calculateScores log w ks).length = ks.length ∧
    ∀ i (hi : i < (calculateScores log w ks).length) (hk : i < ks.length),
      (calculateScores log w ks).get ⟨i, hi⟩ =
        { ks.get ⟨i, hk⟩ with
            score := some ((calculateScore log w (ks.get ⟨i, hk⟩)
              (calculateGroupStats ks)).score) } := by
  constructor
  · simp [calculateScores]
  · intro i hi hk
    simp [calculateScores, List.get_eq_getElem, List.getElem_map]

set_option maxRecDepth 4000 in
/-- Closed instance of claim C10 at index 0 of a two-keyword batch. -/
theorem calculateScores_frame_witness :
    (calculateScores logZero weightsW keywordsW).get
        ⟨0, by with_unfolding_all decide⟩ =
      { keywordsW.get ⟨0, by decide⟩ with
          score := some ((calculateScore logZero weightsW (keywordsW.get ⟨0, by decide⟩)
            (calculateGroupStats keywordsW)).score) } :=
  (calculateScores_frame logZero weightsW keywordsW).2 0
    (by with_unfolding_all decide) (by decide)

set_option maxRecDepth 4000 in
/-- Claim C1 fails on the code: `generateTitles` sorts by the `score`
field, which the evaluation spread never fills in (it stays 0, the
evaluated quality lands in `overall`), so the output keeps generation
order.  On this input the returned overall scores are
[0.65, 0.68, 0.65, 0.68] — not descending — while every sort key is 0. -/
theorem generateTitles_sort_key_bug :
    ((generateTitles cfgC1 compsC1 catalogC1).toOption.getD []).map
        (fun t => t.overall) = [13/20, 17/25, 13/20, 17/25] ∧
    ((generateTitles cfgC1 compsC1 catalogC1).toOption.getD []).map
        (fun t => t.score) = [0, 0, 0, 0] ∧
    (13/20 : ℚ) < 17/25 := by
  with_unfolding_all decide

set_option maxRecDepth 4000 in
/-- Claim C3 fails on the code: on a title whose four quality sub-scores
are all 1, `evaluateTitle` reports `overall = 1`, not 100 — the average is
rounded to two decimals (`Math.round(overall*100)/100`) but never put on
the 0–100 scale the `TitleQualityScore.overall` doc comment promises. -/
theorem evaluateTitle_overall_scale_bug :
    (evaluateTitle DEFAULT_TITLE_CONFIG titleC3).breakdown = ⟨1, 1, 1, 1⟩ ∧
    (evaluateTitle DEFAULT_TITLE_CONFIG titleC3).overall = 1 ∧
    (evaluateTitle DEFAULT_TITLE_CONFIG titleC3).overall ≠ 100 := by
  with_unfolding_all decide

theorem generateTitles_error_of_invalid (cfg : TitleGenerationConfig)
    (components : ProductTitleComponents) (keywords : List Keyword)
    (h : validateInput cfg components keywords ≠ []) :
    generateTitles cfg components keywords = Except.error ("입력 검증 실패: " ++
      String.intercalate ", "
        ((validateInput cfg components keywords).map (fun e => e.message))) := by
  unfold generateTitles
  dsimp only
  rw [if_neg h]

theorem generateTitles_ok_of_valid (cfg : TitleGenerationConfig)
    (components : ProductTitleComponents) (keywords : List Keyword)
    (h : validateInput cfg components keywords = []) :
    ∃ out, generateTitles cfg components keywords = Except.ok out := by
  cases hE : generateTitles cfg components keywords with
  | ok out => exact ⟨out, rfl⟩
  | error e =>
    exfalso
    unfold generateTitles at hE
    dsimp only at hE
    rw [if_pos h] at hE
    exact absurd hE (by simp)

/-- Claim C4: `generateTitles` raises a descriptive error before producing
titles whenever the requested keyword list is empty, exceeds the
configured maximum, or contains a term missing (case-insensitively) from
the catalog; the raised message joins all validation messages, among which
one lists every missing term; on valid input no error is raised; and the
scenario-B request [스마트폰, 케이스] against a catalog lacking 케이스
raises exactly the error naming 케이스. -/
theorem generateTitles_validation (cfg : TitleGenerationConfig)
    (components : ProductTitleComponents) (keywords : List Keyword) :
    (components.keywords = [] →
      ∃ e, generateTitles cfg components keywords = Except.error e) ∧
    (cfg.maxKeywords < components.keywords.length →
      ∃ e, generateTitles cfg components keywords = Except.error e) ∧
    (missingKeywords components keywords ≠ [] →
      ∃ e, generateTitles cfg components keywords = Except.error e ∧
        (⟨"keywords", "존재하지 않는 키워드: " ++
          String.intercalate ", " (missingKeywords components keywords)⟩ : FormError) ∈
          validateInput cfg components keywords ∧
        e = "입력 검증 실패: " ++ String.intercalate ", "
          ((validateInput cfg components keywords).map (fun fe => fe.message))) ∧
    (components.keywords ≠ [] → components.keywords.length ≤ cfg.maxKeywords →
      missingKeywords components keywords = [] →
      ∃ out, generateTitles cfg components keywords = Except.ok out) ∧
    generateTitles DEFAULT_TITLE_CONFIG compsB catalogB =
      Except.error "입력 검증 실패: 존재하지 않는 키워드: 케이스" := by
  refine ⟨?_, ?_, ?_, ?_, rfl⟩
  · intro h
    have hne : validateInput cfg components keywords ≠ [] := by
      simp [validateInput, h]
    exact ⟨_, generateTitles_error_of_invalid cfg components keywords hne⟩
  · intro h
    have hne : validateInput cfg components keywords ≠ [] := by
      simp [validateInput, h, List.append_eq_nil]
    exact ⟨_, generateTitles_error_of_invalid cfg components keywords hne⟩
  · intro h
    have hne : validateInput cfg components keywords ≠ [] := by
      simp [validateInput, h, List.append_eq_nil]
    refine ⟨_, generateTitles_error_of_invalid cfg components keywords hne, ?_, rfl⟩
    simp [validateInput, h, List.mem_append]
  · intro h1 h2 h3
    have hval : validateInput cfg components keywords = [] := by
      simp [validateInput, h1, h3, Nat.not_lt.mpr h2]
    exact generateTitles_ok_of_valid cfg components keywords hval

/-- Closed instance of claim C4 at scenario B. -/
theorem generateTitles_validation_witness :
    ∃ e, generateTitles DEFAULT_TITLE_CONFIG compsB catalogB = Except.error e ∧
      (⟨"keywords", "존재하지 않는 키워드: " ++
        String.intercalate ", " (missingKeywords compsB catalogB)⟩ : FormError) ∈
        validateInput DEFAULT_TITLE_CONFIG compsB catalogB ∧
      e = "입력 검증 실패: " ++ String.intercalate ", "
        ((validateInput DEFAULT_TITLE_CONFIG compsB catalogB).map (fun fe => fe.message)) :=
  (generateTitles_validation DEFAULT_TITLE_CONFIG compsB catalogB).2.2.1 (by decide)
